import Mathlib

/-!
# Verification of the sackboy-studio streaming-relay specification

Shallow embedding of the parts of the repository that the frozen claims
talk about:

* `src/lib/prompt.ts`          — the prompt builder (`buildPrompt`)
* `src/lib/validation.ts`      — upload validation (`validateUpload`, `parseForm`)
* `src/app/api/stylize/route.ts`        — the non-streaming route (`POST`)
* `src/app/api/stylize-stream/route.ts` — the streaming relay (`POST`, the
  revision with the wall-clock timeout, whose lines the claims cite)

Pure TypeScript functions become Lean functions; the streaming handler is
embedded as an explicit state-passing interpreter over an environment that
fixes every external outcome (form parsing, upstream HTTP responses, the
upstream byte stream, the positions at which the wall-clock timeout and the
synthetic-progress interval fire).  JavaScript strings are Lean `String`s;
the relay's byte-stream line decoder is modelled on `List Char` (the
`TextDecoder` with `stream: true` guarantees chunk boundaries never split a
character, so character granularity is faithful).
-/

namespace Sackboy

/-! ## Data model: enums from `src/lib/validation.ts` and `src/lib/prompt.ts` -/

/-- `styleStrength` enum (`'low' | 'medium' | 'high'`). -/
inductive Strength where
  | low | medium | high
  deriving DecidableEq, Repr, Fintype

/-- `generationMode` enum from `validation.ts`
(`'transform' | 'add_sackboy' | 'random_crypto' | 'pokemon_card'`). -/
inductive GenMode where
  | transform | add_sackboy | random_crypto | pokemon_card
  deriving DecidableEq, Repr, Fintype

/-- `size` enum (`'1024x1024' | '1024x1536' | '1536x1024' | 'auto'`). -/
inductive SizeOpt where
  | s1024 | s1024x1536 | s1536x1024 | auto
  deriving DecidableEq, Repr, Fintype

/-! ## Prompt builder (`src/lib/prompt.ts`)

`PromptOptions` in `lib/prompt.ts` declares `generationMode` as
`'transform' | 'add_sackboy'`, but TypeScript type annotations are erased at
runtime and the function body only tests `generationMode === 'add_sackboy'`,
so the embedding uses the full runtime `GenMode` domain (the callers in the
routes pass values of the four-valued enum).  The codomain is
`Except String String` so that the spec's notion of the builder *failing*
is expressible; the source body of `lib/prompt.ts` contains no `throw`, so
the embedding has no `.error` branch. -/

structure PromptOptions where
  styleStrength : Strength
  diorama : Bool
  customPrompt : Option String := none
  removeCaptions : Bool := false
  generationMode : GenMode := .transform
  deriving Repr

/-- ASCII whitespace (the whitespace characters relevant here; JS `trim`
strips all Unicode whitespace, of which these are the ones that occur in
the modelled inputs). -/
def isWs (c : Char) : Bool :=
  c = ' ' || c = '\t' || c = '\n' || c = '\r'

/-- `String.prototype.trim`: strip leading and trailing whitespace. -/
def trimChars (l : List Char) : List Char :=
  ((l.dropWhile isWs).reverse.dropWhile isWs).reverse

/-- `trim` lifted to `String`. -/
def jsTrim (s : String) : String := String.mk (trimChars s.data)

/-- JavaScript truthiness of `customPrompt && customPrompt.trim()`:
the option is present, non-empty, and its trim is non-empty. -/
def customTruthy (c : Option String) : Bool :=
  match c with
  | none => false
  | some s => s ≠ "" && jsTrim s ≠ ""

/-- `parts.join(' ')` — JavaScript `Array.prototype.join` with a space. -/
def joinSp : List String → String
  | [] => ""
  | [x] => x
  | x :: xs => x ++ " " ++ joinSp xs

/-- Base sentences pushed for `generationMode === 'add_sackboy'`. -/
def addSackboyParts : List String :=
  ["Add a single Sackboy character from Little Big Planet into the uploaded image, with burlap plush textures, yarn stitching, and button-like eyes.",
   "The Sackboy should blend naturally into the existing scene and environment.",
   "Preserve the original characters and composition exactly as they are.",
   "Ensure that the overall image style, lighting, and atmosphere remain faithful to the source photo.",
   "The added Sackboy should have cozy handcrafted aesthetics: knit seams, soft felt surfaces, subtle fabric fraying, photorealistic craft materials."]

/-- Base sentences pushed for every other mode (the `else` branch). -/
def transformParts : List String :=
  ["Transform all characters from the uploaded image into Sackboy-style figures from Little Big Planet, with burlap plush textures, yarn stitching, and button-like eyes.",
   "Preserve each subject's unique facial expression, posture, identity, and the original environment and composition.",
   "Ensure that the overall image style, lighting, and atmosphere remain faithful to the source photo.",
   "Emphasize cozy handcrafted aesthetics: knit seams, soft felt surfaces, subtle fabric fraying, photorealistic craft materials."]

/-- The caption-removal sentence. -/
def captionPart : String :=
  "Remove any existing captions or overlaid text, leaving clean space so a new caption can be added later."

/-- The "common ending" exclusion clause. -/
def noTextClause : String :=
  "No text, no logos, no watermarks, no trademarks."

/-- Style-strength modifier sentence per strength. -/
def strengthPart : Strength → String
  | .low => "Subtle Sackboy stylisation; delicate knit and stitch overlay without overpowering realism."
  | .medium => "Moderate Sackboy stylisation; clear burlap and stitched plush qualities visible."
  | .high => "Strong Sackboy stylisation; pronounced knit textures, bold seams, and toy-like craft details."

/-- The diorama sentence. -/
def dioramaPart : String :=
  "Optional setting: a handcrafted tabletop diorama with felt scenery, cardboard props, yarn textures, and warm bokeh craft lights."

/-- The `parts` array of `buildPrompt` at the point of `parts.join(' ')`,
assembled in source order: base sentences (by mode), optional caption
removal, the exclusion clause, the strength modifier (one branch always
fires since `styleStrength` is the three-valued enum), optional diorama,
and finally the trimmed custom prompt when truthy. -/
def promptParts (o : PromptOptions) : List String :=
  (if o.generationMode = .add_sackboy then addSackboyParts else transformParts)
  ++ (if o.removeCaptions then [captionPart] else [])
  ++ [noTextClause]
  ++ [strengthPart o.styleStrength]
  ++ (if o.diorama then [dioramaPart] else [])
  ++ (if customTruthy o.customPrompt then [jsTrim (o.customPrompt.getD "")] else [])

/-- `buildPrompt` from `src/lib/prompt.ts`.  The body never throws, so
every input maps to `.ok`. -/
def buildPrompt (o : PromptOptions) : Except String String :=
  Except.ok (joinSp (promptParts o))

/-- The string `buildPrompt` returns. -/
def builtPrompt (o : PromptOptions) : String :=
  joinSp (promptParts o)

/-! ## Substring occurrence counting

Used to state "contains the clause exactly once" and "contains the custom
text verbatim" at the character level. -/

/-- Number of occurrences of `n` as a contiguous substring of `h`
(counted at every start position; standard naive count). -/
def cnt (n : List Char) : List Char → Nat
  | [] => if n <+: ([] : List Char) then 1 else 0
  | c :: t => (if n <+: (c :: t) then 1 else 0) + cnt n t

/-- `n` occurs somewhere in `h`. -/
def containsStr (h n : String) : Prop :=
  n.data <:+: h.data

instance (h n : String) : Decidable (containsStr h n) := by
  unfold containsStr; infer_instance

/-- Occurrence count lifted to `String`. -/
def strCnt (n h : String) : Nat := cnt n.data h.data

/-- The parts of the prompt that do not depend on `customPrompt`:
everything `buildPrompt` pushes before the custom prompt, keyed by the two
Booleans and the strength that select them. -/
def fixedPartsB (isAdd rc : Bool) (st : Strength) (di : Bool) : List String :=
  (if isAdd then addSackboyParts else transformParts)
  ++ (if rc then [captionPart] else [])
  ++ [noTextClause]
  ++ [strengthPart st]
  ++ (if di then [dioramaPart] else [])

/-! ## Upload validation (`src/lib/validation.ts`) -/

/-- The `ACCEPT` allow-list: exactly three image MIME types. -/
def ACCEPT : List String := ["image/png", "image/jpeg", "image/webp"]

/-- The `MAX_SIZE` ceiling: 8 MB. -/
def MAX_SIZE : Nat := 8 * 1024 * 1024

/-- A browser `File` as far as `validateUpload`/`parseForm` read it:
its MIME `type` and byte `size`. -/
structure JsFile where
  type : String
  size : Nat
  deriving DecidableEq, Repr

/-- `validateUpload` from `src/lib/validation.ts`: allow-list check first,
then the size ceiling; `null` (here `none`) on success. -/
def validateUpload (f : JsFile) : Option String :=
  if ¬ (f.type ∈ ACCEPT) then some "Please upload a PNG, JPG, or WebP image."
  else if f.size > MAX_SIZE then some "Image is too large (max 8 MB)."
  else none

/-- A value read from a multipart form entry: JavaScript `FormData.get`
returns `null`, a string, or a `File`. -/
inductive FormVal where
  | str (s : String)
  | file (f : JsFile)
  deriving DecidableEq, Repr

/-- The multipart form as `parseForm` reads it.  The control fields are
modelled as the string value of `form.get(...)?.toString()` (or `none`
when the field is absent). -/
structure FormDataM where
  image : Option FormVal := none
  size : Option String := none
  styleStrength : Option String := none
  diorama : Option String := none
  keepPrivate : Option String := none
  customPrompt : Option String := none
  removeCaptions : Option String := none
  generationMode : Option String := none
  deriving Repr

/-- `form.get(f)?.toString() || default`: absent or empty falls back. -/
def orDefault (v : Option String) (d : String) : String :=
  match v with
  | none => d
  | some s => if s = "" then d else s

/-- `SizeSchema.parse`. -/
def parseSize : String → Except String SizeOpt
  | "1024x1024" => .ok .s1024
  | "1024x1536" => .ok .s1024x1536
  | "1536x1024" => .ok .s1536x1024
  | "auto" => .ok .auto
  | _ => .error "Invalid enum value for size"

/-- `StyleSchema.parse`. -/
def parseStrength : String → Except String Strength
  | "low" => .ok .low
  | "medium" => .ok .medium
  | "high" => .ok .high
  | _ => .error "Invalid enum value for styleStrength"

/-- `GenerationModeSchema.parse`. -/
def parseGenMode : String → Except String GenMode
  | "transform" => .ok .transform
  | "add_sackboy" => .ok .add_sackboy
  | "random_crypto" => .ok .random_crypto
  | "pokemon_card" => .ok .pokemon_card
  | _ => .error "Invalid enum value for generationMode"

/-- The record `parseForm` resolves on success.  `file` is the raw
`form.get('image')` value, passed through unchecked (`file as File | null`). -/
structure ParsedForm where
  file : Option FormVal
  size : SizeOpt
  styleStrength : Strength
  diorama : Bool
  keepPrivate : Bool
  customPrompt : String
  removeCaptions : Bool
  generationMode : GenMode
  deriving Repr

/-- `parseForm` from `src/lib/validation.ts`.  For every mode other than
`random_crypto`/`pokemon_card` it requires a `Blob` image and applies the
zod `FileSchema` (type in `ACCEPT`, size at most `MAX_SIZE`); for those two
modes the image entry is not inspected at all.  Then the three enum schemas
are applied.  Any schema failure throws (`Except.error`). -/
def parseForm (form : FormDataM) : Except String ParsedForm :=
  let gmStr := orDefault form.generationMode "transform"
  let imageCheck : Except String Unit :=
    if gmStr ≠ "random_crypto" ∧ gmStr ≠ "pokemon_card" then
      match form.image with
      | some (.file f) =>
        if ¬ (f.type ∈ ACCEPT) then .error "Invalid enum value for file type"
        else if f.size > MAX_SIZE then .error "File size exceeds maximum"
        else .ok ()
      | _ => .error "Missing image."
    else .ok ()
  match imageCheck with
  | .error e => .error e
  | .ok _ =>
    match parseSize (orDefault form.size "1024x1024") with
    | .error e => .error e
    | .ok size =>
      match parseStrength (orDefault form.styleStrength "medium") with
      | .error e => .error e
      | .ok styleStrength =>
        match parseGenMode gmStr with
        | .error e => .error e
        | .ok generationMode =>
          .ok { file := form.image
                size := size
                styleStrength := styleStrength
                diorama := decide (form.diorama = some "true")
                keepPrivate := decide (¬ (form.keepPrivate = some "false"))
                customPrompt := form.customPrompt.getD ""
                removeCaptions := decide (form.removeCaptions = some "true")
                generationMode := generationMode }

/-! ## Non-streaming route (`src/app/api/stylize/route.ts`) -/

/-- `MAX_PER_REQUEST`: the per-call image limit. -/
def MAX_PER_REQUEST : Nat := 10

/-- `MAX_TOTAL`: the safety cap for the requested count. -/
def MAX_TOTAL : Int := 100

/-- The result of `Number(form.get('n') || 1)` when the field is present
and non-empty: `NaN`, an infinity, or a (here integer-valued) number. -/
inductive JsNum where
  | nan
  | posInf
  | negInf
  | int (i : Int)
  deriving DecidableEq, Repr

/-- Lines 31–33 of the route: default to `1` when the field is absent or
empty, reset to `1` when non-finite or below `1`, cap at `MAX_TOTAL`. -/
def normalizeN (raw : Option JsNum) : Int :=
  let n : Option JsNum := raw
  match n with
  | none => min 1 MAX_TOTAL
  | some .nan => min 1 MAX_TOTAL
  | some .posInf => min 1 MAX_TOTAL
  | some .negInf => min 1 MAX_TOTAL
  | some (.int i) => if i < 1 then min 1 MAX_TOTAL else min i MAX_TOTAL

/-- The `while (remaining > 0)` batch-splitting loop, with an explicit
iteration bound (`fuel`): each iteration removes at least one from
`remaining`, so `fuel = n` iterations always suffice and the fuel is never
exhausted first (see `mkBatchesGo_sum`). -/
def mkBatchesGo : Nat → Nat → List Nat
  | _, 0 => []
  | 0, _ + 1 => []
  | fuel + 1, r + 1 =>
    min MAX_PER_REQUEST (r + 1) :: mkBatchesGo fuel (r + 1 - min MAX_PER_REQUEST (r + 1))

/-- The batch-splitting loop (lines 83–91): repeatedly take
`Math.min(MAX_PER_REQUEST, remaining)` until nothing remains. -/
def mkBatches (n : Nat) : List Nat := mkBatchesGo n n

/-- Outcome of one upstream call in the batching path, as the route reads
it: a failure (`!res.ok` or a rejected fetch, surfaced as the thrown
message) or a JSON body whose `data` array items may or may not carry a
`b64_json`. -/
inductive BatchOut where
  | fail (msg : String)
  | okJson (items : List (Option String))
  deriving Repr

/-- Outcome of the single-image path's upstream call. -/
inductive SingleOut where
  | notOk (msg : String)
  | okJson (b64 : Option String)
  deriving Repr

/-- `filter(Boolean)` over the mapped `b64_json` fields: keep only present
non-empty strings. -/
def filterB64 (items : List (Option String)) : List String :=
  items.filterMap (fun it =>
    match it with
    | some s => if s = "" then none else some s
    | none => none)

/-- Environment fixing every external outcome of one non-streaming
request. -/
structure StylizeEnv where
  form : FormDataM
  nRaw : Option JsNum
  singleRes : SingleOut
  batchRes : Nat → BatchOut
  storeUrl : Option String

/-- The `meta` object of a success response (the fields C10 is about). -/
structure MetaOut where
  requested : Int
  returned : Nat
  deriving DecidableEq, Repr

/-- The route's response, reduced to what the claims read: an error JSON
with an HTTP status, or a success JSON with the first image and `meta`. -/
inductive StylizeResp where
  | errResp (msg : String) (status : Nat)
  | okResp (firstImage : String) (imageUrl : Option String) (meta : MetaOut)
  deriving Repr, DecidableEq

/-- First failing batch outcome among the first `k` batches, if any
(`Promise.all` rejects when any request rejects; completion order is not
modelled — the claims do not depend on which failure wins). -/
def firstBatchFail (env : StylizeEnv) : Nat → Option String
  | 0 => none
  | k + 1 =>
    match firstBatchFail env k with
    | some m => some m
    | none =>
      match env.batchRes k with
      | .fail m => some m
      | .okJson _ => none

/-- All `b64_json` images collected from `k` successful batches, in order. -/
def collectB64 (env : StylizeEnv) : Nat → List String
  | 0 => []
  | k + 1 =>
    collectB64 env k ++
      (match env.batchRes k with
       | .fail _ => []
       | .okJson items => filterB64 items)

/-- `POST` of `src/app/api/stylize/route.ts`: parse the form, normalize
`n`, then either the original single-image path or the parallel batching
path; any thrown error is caught and returned as `{error}` with status
400. -/
def stylizePost (env : StylizeEnv) : StylizeResp :=
  match parseForm env.form with
  | .error m => .errResp m 400
  | .ok pf =>
    let n : Int := normalizeN env.nRaw
    if n = 1 then
      match env.singleRes with
      | .notOk msg => .errResp msg 400
      | .okJson b64 =>
        match b64 with
        | none => .errResp "No image returned." 502
        | some b =>
          if b = "" then .errResp "No image returned." 502
          else
            .okResp ("data:image/png;base64," ++ b)
              (if pf.keepPrivate then none else env.storeUrl)
              { requested := 1, returned := 1 }
    else
      let batches := mkBatches n.toNat
      match firstBatchFail env batches.length with
      | some m => .errResp m 400
      | none =>
        let allB64 := collectB64 env batches.length
        match allB64 with
        | [] => .errResp "No images returned." 502
        | b :: _ =>
          .okResp ("data:image/png;base64," ++ b) none
            { requested := n, returned := allB64.length }

/-! ## Streaming relay (`src/app/api/stylize-stream/route.ts`)

Embedding of the `POST` handler revision that carries the wall-clock
timeout (`REQUEST_TIMEOUT`) — the revision the claims cite.  The handler
is a single-threaded async function: timer callbacks (the timeout and the
synthetic-progress interval) can only run while the main flow is suspended
at an `await`.  The embedding therefore threads an explicit state through
the straight-line code and, at every await point, first runs any pending
interval callbacks, then (possibly) the timeout callback, and then
resolves the await — rejecting with an abort error when the abort signal
has fired and the awaited operation is tied to it.  `controller.enqueue`
on a closed stream throws a `TypeError`; `controller.close` is always
reached in the source immediately after a terminal enqueue. -/

/-- A `ProgressEvent` on the wire, with the payload fields the claims
read. -/
inductive Ev where
  | progress (p : Nat) (msg : String)
  | partialEv (b64 : String) (idx : Nat) (p : Nat) (msg : String)
  | complete (b64 : String) (url : Option String) (p : Nat)
  | errorEv (msg : String)
  deriving DecidableEq, Repr

/-- Terminal events: `complete` or `error`. -/
def isTerm : Ev → Bool
  | .complete _ _ _ => true
  | .errorEv _ => true
  | _ => false

/-- The percent carried by an event, when it carries one. -/
def percentOf : Ev → Option Nat
  | .progress p _ => some p
  | .partialEv _ _ p _ => some p
  | .complete _ _ p => some p
  | .errorEv _ => none

/-- The output `ReadableStream` controller: delivered events, in order,
and whether the stream has been closed. -/
structure Ctrl where
  events : List Ev
  closed : Bool
  deriving DecidableEq, Repr

/-- Number of terminal events delivered. -/
def Ctrl.termCount (c : Ctrl) : Nat := c.events.countP (fun e => isTerm e)

/-- Whether the last delivered event is terminal. -/
def lastIsTerm (l : List Ev) : Bool :=
  match l.getLast? with
  | some e => isTerm e
  | none => false

/-! ### The line-buffering decoder (`buffer.split('\n')`, keep last) -/

/-- Split a character stream at `'\n'`: the complete lines (everything up
to the last newline) and the retained remainder.  `buffer.split('\n')`
followed by `buffer = lines.pop() || ''` keeps exactly this remainder. -/
def lineSplit : List Char → List (List Char) × List Char
  | [] => ([], [])
  | c :: cs =>
    if c = '\n' then ([] :: (lineSplit cs).1, (lineSplit cs).2)
    else
      match lineSplit cs with
      | ([], r) => ([], c :: r)
      | (l :: ls, r) => ((c :: l) :: ls, r)

/-- Feed a sequence of read chunks through the decoder starting from a
buffer: all complete lines produced, in order, and the final buffer. -/
def feedAllFrom (buf : List Char) : List (List Char) → List (List Char) × List Char
  | [] => ([], buf)
  | ch :: rest =>
    let r := lineSplit (buf ++ ch)
    let r2 := feedAllFrom r.2 rest
    (r.1 ++ r2.1, r2.2)

/-! ### Per-line event decoding (the `for (const line of lines)` body) -/

/-- A parsed upstream SSE JSON payload: its `type` discriminator and the
`b64_json` / `partial_image_index` fields when present.  JSON parsing
itself is abstracted as a function `List Char → Option UpJson` (`none`
models both a `JSON.parse` failure, which the code catches and skips, and
is composed with the concrete `data: ` framing below). -/
structure UpJson where
  ty : String
  b64 : Option String
  pidx : Option Nat

/-- Loop constants that differ between the three stream-relaying loops in
the handler (image edit, random-crypto generation, Sackmon-card
generation). -/
structure LoopCfg where
  partialTy : String
  completedTy : String
  base : Nat
  cap : Nat
  partialMsg : Nat → String
  finalMsg : String

/-- Loop state: `partialCount` and `finalImage`. -/
structure LoopSt where
  partialCount : Nat
  finalImage : Option String

/-- Config of the `image_edit` loop (transform / add-sackboy path). -/
def editCfg : LoopCfg :=
  { partialTy := "image_edit.partial_image"
    completedTy := "image_edit.completed"
    base := 20, cap := 80
    partialMsg := fun k => "Generating... (partial " ++ toString k ++ ")"
    finalMsg := "Finalizing..." }

/-- Config of the `image_generation` loop on the random-crypto path. -/
def cryptoCfg : LoopCfg :=
  { partialTy := "image_generation.partial_image"
    completedTy := "image_generation.completed"
    base := 40, cap := 85
    partialMsg := fun k => "Generating... (partial " ++ toString k ++ ")"
    finalMsg := "Finalizing..." }

/-- Config of the `image_generation` loop on the Sackmon-card path. -/
def pokemonCfg : LoopCfg :=
  { partialTy := "image_generation.partial_image"
    completedTy := "image_generation.completed"
    base := 40, cap := 85
    partialMsg := fun k => "Generating Sackmon card... (partial " ++ toString k ++ ")"
    finalMsg := "Finalizing Sackmon card..." }

/-- Process one complete line: skip `event: ` lines, decode `data: `
lines (slice off the 6-character prefix, trim, skip empty payloads and
unparseable/unrecognized frames), emit a `partial` event with percent
`min(base + 15·partialCount, cap)` or record the final image and emit the
`Finalizing` progress event. -/
def lineEvents (cfg : LoopCfg) (jsonOf : List Char → Option UpJson)
    (ls : LoopSt) (line : List Char) : LoopSt × List Ev :=
  if ("event: ".data).isPrefixOf line then (ls, [])
  else if ("data: ".data).isPrefixOf line then
    let jsonStr := trimChars (line.drop 6)
    if jsonStr = [] then (ls, [])
    else
      match jsonOf jsonStr with
      | none => (ls, [])
      | some j =>
        if j.ty = cfg.partialTy then
          let pc := ls.partialCount + 1
          let prog := min (cfg.base + pc * 15) cfg.cap
          let pidx :=
            match j.pidx with
            | some k => if k = 0 then pc else k
            | none => pc
          ({ partialCount := pc, finalImage := ls.finalImage },
           [.partialEv ("data:image/png;base64," ++ (j.b64.getD "undefined"))
              pidx prog (cfg.partialMsg pc)])
        else if j.ty = cfg.completedTy then
          ({ ls with finalImage := j.b64 }, [.progress 90 cfg.finalMsg])
        else (ls, [])
  else (ls, [])

/-- Process a list of complete lines, threading the loop state and
concatenating the emitted events. -/
def linesFold (cfg : LoopCfg) (jsonOf : List Char → Option UpJson) :
    LoopSt → List (List Char) → LoopSt × List Ev
  | ls, [] => (ls, [])
  | ls, line :: rest =>
    let r := lineEvents cfg jsonOf ls line
    let r2 := linesFold cfg jsonOf r.1 rest
    (r2.1, r.2 ++ r2.2)

/-- The pure (abort-free) relay loop over a partition of the upstream
bytes into read chunks: per read, append to the buffer, take the complete
lines, process them; the trailing incomplete line is discarded when the
stream ends.  Returns the final loop state and all emitted events. -/
def relayPure (cfg : LoopCfg) (jsonOf : List Char → Option UpJson) :
    LoopSt → List Char → List (List Char) → LoopSt × List Ev
  | ls, _, [] => (ls, [])
  | ls, buf, ch :: rest =>
    let r := lineSplit (buf ++ ch)
    let r1 := linesFold cfg jsonOf ls r.1
    let r2 := relayPure cfg jsonOf r1.1 r.2 rest
    (r2.1, r1.2 ++ r2.2)

/-! ### The handler state machine -/

/-- Which synthetic-progress interval is currently installed. -/
inductive IvKind where
  | edit | crypto | pokemon
  deriving DecidableEq, Repr

/-- Exceptions of the embedded handler: an `AbortError` rejection, an
ordinary `Error` with a message, and the `TypeError` thrown by
`controller.enqueue` on a closed stream. -/
inductive Exn where
  | abortExn
  | jsExn (msg : String)
  | closedExn
  deriving DecidableEq, Repr

/-- Request-scoped handler state: the output controller, the pending
timeout (countdown in await points, plus whether `clearTimeout` has run),
the abort signal, the installed interval, `currentProgress`, and the
await-point index (used to look up the interval-tick schedule). -/
structure St where
  ctrl : Ctrl
  timerActive : Bool
  timeoutLeft : Option Nat
  aborted : Bool
  iv : Option IvKind
  current : Nat
  idx : Nat

/-- Result of running a handler fragment: normal completion or a
propagating exception, each carrying the state. -/
inductive R (α : Type) where
  | ok (s : St) (v : α)
  | ex (s : St) (e : Exn)

/-- Sequencing: exceptions propagate. -/
def R.bind {α β : Type} : R α → (St → α → R β) → R β
  | .ok s v, f => f s v
  | .ex s e, _ => .ex s e

/-- One outcome of `await reader.read()`: a value chunk or a rejection. -/
inductive ReadEv where
  | chunk (cs : List Char)
  | rerr (msg : String)

/-- An upstream HTTP response as the handler reads it: `res.ok`,
`res.status`, the `error.message` extracted from the JSON error body when
parseable (`none` models both an unparseable body and an absent field),
and the raw body text (which this handler never reads). -/
structure HttpRes where
  ok : Bool
  status : Nat
  errMsg : Option String
  rawText : String

/-- Environment fixing every external outcome of one streaming request. -/
structure StreamEnv where
  parse : Except String ParsedForm
  apiKey : Bool
  auxRes : Except String HttpRes
  auxPrompt : Option String
  imgRes : Except String HttpRes
  hasBody : Bool
  reads : List ReadEv
  storeUrl : Option String
  jsonOf : List Char → Option UpJson
  timeoutAt : Option Nat
  ticks : Nat → List (Nat × Nat)

/-- `controller.enqueue`: appends when open, throws `TypeError` when
closed. -/
def enq (e : Ev) (s : St) : R Unit :=
  if s.ctrl.closed then .ex s .closedExn
  else .ok { s with ctrl := { s.ctrl with events := s.ctrl.events ++ [e] } } ()

/-- `sendProgress`: set `currentProgress`, then enqueue a progress
event. -/
def sendProgress (p : Nat) (msg : String) (s : St) : R Unit :=
  enq (.progress p msg) { s with current := p }

/-- `cleanup()`: clear the timeout and the interval, abort the upstream
signal. -/
def cleanupS (s : St) : St :=
  { s with timerActive := false, iv := none, aborted := true }

/-- A terminal enqueue followed (with no intervening await) by
`cleanup(); controller.close()`. -/
def emitTerminalClose (e : Ev) (s : St) : R Unit :=
  (enq e s).bind fun s1 _ =>
    let s2 := cleanupS s1
    .ok { s2 with ctrl := { s2.ctrl with closed := true } } ()

/-- Gate below which an interval keeps emitting. -/
def ivGate : IvKind → Nat
  | .edit => 70
  | .crypto => 85
  | .pokemon => 85

/-- Cap passed to `Math.min` by the interval callback. -/
def ivCap : IvKind → Nat
  | .edit => 90
  | .crypto => 85
  | .pokemon => 85

/-- Net integer increment of one interval tick
(`Math.floor(current + Math.random()*3 + 1)` adds 1–3 to an integer
`current`; the crypto/pokemon interval adds 2–6), driven by an
environment seed. -/
def ivInc (k : IvKind) (seed : Nat) : Nat :=
  match k with
  | .edit => seed % 3 + 1
  | .crypto => seed % 5 + 2
  | .pokemon => seed % 5 + 2

/-- The rotating message lists of the three intervals. -/
def ivMsgs : IvKind → List String
  | .edit =>
    ["Processing your image...", "Analyzing composition...",
     "Applying Sackboy transformation...", "Generating craft textures...",
     "Adding knitted details...", "Creating plush aesthetics...",
     "Rendering burlap textures...", "Almost there..."]
  | .crypto =>
    ["Crafting memecoin vibes...", "Adding crypto elements...",
     "Styling Sackboy design...", "Rendering creative details...",
     "Almost ready..."]
  | .pokemon =>
    ["Crafting card design...", "Adding Pokémon elements...",
     "Styling Sackmon details...", "Rendering card artwork...",
     "Almost ready..."]

/-- One interval callback: when `currentProgress` is below the gate, send
a progress update capped at `ivCap`.  Runs inside a timer, so an enqueue
on a closed controller throws inside the callback and delivers nothing
(`currentProgress` has already been updated at that point). -/
def runTick (k : IvKind) (sd : Nat × Nat) (s : St) : St :=
  if s.current < ivGate k then
    let p := min (s.current + ivInc k sd.1) (ivCap k)
    let s1 := { s with current := p }
    if s1.ctrl.closed then s1
    else { s1 with ctrl := { s1.ctrl with events :=
      s1.ctrl.events ++ [.progress p ((ivMsgs k).getD (sd.2 % (ivMsgs k).length) "")] } }
  else s

/-- All interval callbacks pending at one await point. -/
def runTicks (k : IvKind) : List (Nat × Nat) → St → St
  | [], s => s
  | sd :: rest, s => runTicks k rest (runTick k sd s)

/-- The timeout callback (lines 265–273): enqueue the timeout error, then
`cleanup(); controller.close()`.  When the controller is already closed
the enqueue throws inside the callback, skipping the rest (which is
harmless: every close in the handler runs `cleanup()` first). -/
def fireTimeout (s : St) : St :=
  if s.ctrl.closed then { s with timerActive := false }
  else
    let s1 := { s with ctrl := { s.ctrl with events :=
      s.ctrl.events ++ [.errorEv "Request timeout - generation took too long"] } }
    let s2 := cleanupS s1
    { s2 with ctrl := { s2.ctrl with closed := true } }

/-- An await point: pending interval callbacks run, then the timeout
callback when its countdown has elapsed and it has not been cleared; the
await itself then rejects with an `AbortError` when it is tied to the
aborted signal. -/
def awaitPt (env : StreamEnv) (abortable : Bool) (s : St) : R Unit :=
  let s1 :=
    match s.iv with
    | some k => runTicks k (env.ticks s.idx) s
    | none => s
  let s2 :=
    match s1.timeoutLeft with
    | some 0 => { (if s1.timerActive then fireTimeout s1 else s1) with timeoutLeft := none }
    | some (n + 1) => { s1 with timeoutLeft := some n }
    | none => s1
  let s3 := { s2 with idx := s2.idx + 1 }
  if abortable ∧ s3.aborted then .ex s3 .abortExn else .ok s3 ()

/-- Install an interval. -/
def setIv (k : IvKind) (s : St) : St := { s with iv := some k }

/-- `clearInterval`. -/
def clearIv (s : St) : St := { s with iv := none }

/-- `x?.error?.message || fallback` (an empty message is falsy). -/
def errMsgOr (m : Option String) (fallback : String) : String :=
  match m with
  | some s => if s = "" then fallback else s
  | none => fallback

/-- JavaScript falsiness of the `file` binding (`File | null`, but the
raw form value can also be a string): `null` and `""` are falsy. -/
def fileFalsy : Option FormVal → Bool
  | none => true
  | some (.str s) => s = ""
  | some (.file _) => false

/-- The stream-relaying `while (true)` read loop, with an await per
`reader.read()` (including the final read that resolves `done`); a read
rejection — abort or upstream failure — propagates.  Returns the final
loop state and `hasReceivedData`. -/
def relayLoop (env : StreamEnv) (cfg : LoopCfg) :
    List ReadEv → LoopSt → List Char → Bool → St → R (LoopSt × Bool)
  | [], ls, _, hasData, s =>
    (awaitPt env true s).bind fun s1 _ => .ok s1 (ls, hasData)
  | re :: rest, ls, buf, hasData, s =>
    (awaitPt env true s).bind fun s1 _ =>
      match re with
      | .rerr m => .ex s1 (.jsExn m)
      | .chunk cs =>
        let r := lineSplit (buf ++ cs)
        let r1 := linesFold cfg env.jsonOf ls r.1
        (enqList r1.2 s1).bind fun s2 _ =>
          relayLoop env cfg rest r1.1 r.2 (hasData || true) s2
where
  /-- Enqueue a list of events in order, stopping at the first failure. -/
  enqList : List Ev → St → R Unit
    | [], s => .ok s ()
    | e :: rest, s => (enq e s).bind fun s1 _ => enqList rest s1

/-- The optional best-effort persistence step: skipped in privacy mode;
otherwise one (non-abortable) await whose failure is swallowed. -/
def storageStep (env : StreamEnv) (pf : ParsedForm) (s : St) : R (Option String) :=
  if pf.keepPrivate then .ok s none
  else (awaitPt env false s).bind fun s1 _ => .ok s1 env.storeUrl

/-- The auxiliary text-prompt call shared by the two generation branches:
await the fetch, on `!res.ok` await the error body and throw with the
branch-specific prefix, otherwise await the JSON and extract
`output?.[0]?.content?.[0]?.text?.trim()`, throwing when absent or
empty. -/
def auxPromptStep (env : StreamEnv) (failPrefix noPromptMsg : String) (s : St) :
    R String :=
  (awaitPt env true s).bind fun s1 _ =>
    match env.auxRes with
    | .error m => .ex s1 (.jsExn m)
    | .ok res =>
      if ¬ res.ok then
        (awaitPt env true s1).bind fun s2 _ =>
          .ex s2 (.jsExn (failPrefix ++ errMsgOr res.errMsg "Unknown error"))
      else
        (awaitPt env true s1).bind fun s2 _ =>
          match env.auxPrompt with
          | some raw =>
            if jsTrim raw = "" then .ex s2 (.jsExn noPromptMsg)
            else .ok s2 (jsTrim raw)
          | none => .ex s2 (.jsExn noPromptMsg)

/-- The `pokemon_card` branch (lines 303–533): generate the card prompt,
start the interval, call the image generation (throwing on failure, the
interval cleared only after the `ok` check in this branch), relay the
stream, check the final image, optionally persist, emit `complete` and
close. -/
def pokemonPath (env : StreamEnv) (pf : ParsedForm) (s : St) : R Unit :=
  (sendProgress 10 "Generating Sackmon card prompt..." s).bind fun s1 _ =>
  (auxPromptStep env "Failed to generate Sackmon card prompt: "
      "No Sackmon card prompt generated from OpenAI Responses API" s1).bind fun s2 _ =>
  (sendProgress 20 "Creating Sackmon trading card..." s2).bind fun s3 _ =>
  (awaitPt env true (setIv .pokemon s3)).bind fun s4 _ =>
  match env.imgRes with
  | .error m => .ex s4 (.jsExn m)
  | .ok res =>
    if ¬ res.ok then
      (awaitPt env true s4).bind fun s5 _ =>
        .ex s5 (.jsExn ("gpt-image-1 generation failed: " ++ errMsgOr res.errMsg "Unknown error"))
    else
      let s5 := clearIv s4
      if ¬ env.hasBody then .ex s5 (.jsExn "No reader available from gpt-image-1 response")
      else
        (relayLoop env pokemonCfg env.reads ⟨0, none⟩ [] false s5).bind fun s6 r =>
        match r.1.finalImage with
        | none =>
          if r.2 then .ex s6 (.jsExn "Sackmon card generation incomplete - no final image received")
          else .ex s6 (.jsExn "No response received from gpt-image-1 for Sackmon card")
        | some img =>
          (storageStep env pf s6).bind fun s7 url =>
          emitTerminalClose (.complete ("data:image/png;base64," ++ img) url 100) s7

/-- The `random_crypto` branch (lines 536–736): generate the creative
prompt, start the interval, call the image generation (interval cleared
before the `ok` check in this branch), relay the stream, check the final
image, optionally persist, emit `complete` and close. -/
def cryptoPath (env : StreamEnv) (pf : ParsedForm) (s : St) : R Unit :=
  (sendProgress 10 "Generating creative prompt..." s).bind fun s1 _ =>
  (auxPromptStep env "Failed to generate creative prompt: "
      "No prompt generated from OpenAI Responses API" s1).bind fun s2 _ =>
  (sendProgress 20 "Creating Sackboy memecoin artwork..." s2).bind fun s3 _ =>
  (awaitPt env true (setIv .crypto s3)).bind fun s4 _ =>
  match env.imgRes with
  | .error m => .ex s4 (.jsExn m)
  | .ok res =>
    let s5 := clearIv s4
    if ¬ res.ok then
      (awaitPt env true s5).bind fun s6 _ =>
        .ex s6 (.jsExn (errMsgOr res.errMsg
          ("gpt-image-1 error (" ++ toString res.status ++ ")")))
    else
      (sendProgress 90 "Processing image generation..." s5).bind fun s6 _ =>
      if ¬ env.hasBody then .ex s6 (.jsExn "No streaming response available")
      else
        (relayLoop env cryptoCfg env.reads ⟨0, none⟩ [] false s6).bind fun s7 r =>
        match r.1.finalImage with
        | none =>
          if r.2 then .ex s7 (.jsExn "Generation incomplete - no final image received")
          else .ex s7 (.jsExn "No response received from gpt-image-1")
        | some img =>
          (storageStep env pf s7).bind fun s8 url =>
          emitTerminalClose (.complete ("data:image/png;base64," ++ img) url 100) s8

/-- The image-editing tail for `transform`/`add_sackboy` (lines 737–954):
require a truthy file, build the prompt, call the image edit with the
interval running, on `!res.ok` emit the extracted error message as the
terminal event (lines 806–817), otherwise announce 95%, relay the stream,
check the final image (terminal error events on failure), optionally
persist, emit `complete` and close. -/
def transformPath (env : StreamEnv) (pf : ParsedForm) (s : St) : R Unit :=
  (sendProgress 10 "Starting OpenAI transformation..." s).bind fun s1 _ =>
  if fileFalsy pf.file then
    emitTerminalClose (.errorEv "Image file required for this generation mode") s1
  else
    -- `const prompt = buildPrompt({...})` — pure, feeds the upstream call
    (sendProgress 10 "Starting OpenAI transformation..." s1).bind fun s2 _ =>
    (sendProgress 15 "Connecting to OpenAI..." s2).bind fun s3 _ =>
    (awaitPt env true (setIv .edit s3)).bind fun s4 _ =>
    match env.imgRes with
    | .error m => .ex s4 (.jsExn m)
    | .ok res =>
      let s5 := clearIv s4
      if ¬ res.ok then
        (awaitPt env true s5).bind fun s6 _ =>
          emitTerminalClose (.errorEv (errMsgOr res.errMsg
            ("OpenAI error (" ++ toString res.status ++ ")"))) s6
      else
        (sendProgress 95 "Receiving generated image..." s5).bind fun s6 _ =>
        if ¬ env.hasBody then
          emitTerminalClose (.errorEv "No streaming response available") s6
        else
          (relayLoop env editCfg env.reads ⟨0, none⟩ [] false s6).bind fun s7 r =>
          match r.1.finalImage with
          | none =>
            if r.2 then
              emitTerminalClose (.errorEv "Generation incomplete - no final image received") s7
            else
              emitTerminalClose (.errorEv "No response received from OpenAI") s7
          | some img =>
            (storageStep env pf s7).bind fun s8 url =>
            emitTerminalClose (.complete ("data:image/png;base64," ++ img) url 100) s8

/-- The `try` body of the handler: initial progress, parse (one await for
`req.formData()`/`parseForm`, whose rejection propagates), the API-key
guard, then the branch dispatch on the generation mode. -/
def mainFlow (env : StreamEnv) (s : St) : R Unit :=
  (sendProgress 5 "Parsing request..." s).bind fun s1 _ =>
  (awaitPt env false s1).bind fun s2 _ =>
  match env.parse with
  | .error m => .ex s2 (.jsExn m)
  | .ok pf =>
    if ¬ env.apiKey then
      emitTerminalClose (.errorEv "OpenAI API key not configured") s2
    else if pf.generationMode = .pokemon_card then pokemonPath env pf s2
    else if pf.generationMode = .random_crypto then cryptoPath env pf s2
    else transformPath env pf s2

/-- The `catch` block (lines 956–974): an `AbortError` maps to the
cancellation message, anything else to its message (or the fallback);
the error is enqueued and the stream closed — unless the stream is already
closed, in which case the enqueue itself throws and nothing more is
delivered. -/
def catchWrap (r : R Unit) : St :=
  match r with
  | .ok s _ => s
  | .ex s e =>
    let msg :=
      match e with
      | .abortExn => "Request was cancelled or timed out"
      | .jsExn m => if m = "" then "Generation failed" else m
      | .closedExn => "Controller is already closed"
    if s.ctrl.closed then s
    else
      let s1 := { s with ctrl := { s.ctrl with events := s.ctrl.events ++ [.errorEv msg] } }
      let s2 := cleanupS s1
      { s2 with ctrl := { s2.ctrl with closed := true } }

/-- `POST` of the streaming route: run the `try` body from the initial
state (timer installed, `currentProgress = 10`) under the `catch`
wrapper; the observable outcome is the controller. -/
def runPOST (env : StreamEnv) : Ctrl :=
  (catchWrap (mainFlow env
    { ctrl := { events := [], closed := false }
      timerActive := true
      timeoutLeft := env.timeoutAt
      aborted := false
      iv := none
      current := 10
      idx := 0 })).ctrl

/-! ### The single-terminal-event invariant -/

/-- Invariant on the output controller: while the stream is open no
terminal event has been delivered; once it is closed, exactly one terminal
event has been delivered and it is the last event. -/
def QCtrl (c : Ctrl) : Prop :=
  match c.closed with
  | true => c.termCount = 1 ∧ lastIsTerm c.events = true
  | false => c.termCount = 0

/-- The invariant on handler state. -/
def QSt (s : St) : Prop := QCtrl s.ctrl

/-- The invariant on a fragment result, on both exits. -/
def QR {α : Type} : R α → Prop
  | .ok s _ => QSt s
  | .ex s _ => QSt s

/-- Strengthened postcondition for fragments that end the response on
normal completion: on the `ok` exit the stream is closed (after its
terminal event); on an exception the invariant still holds. -/
def FinalR {α : Type} : R α → Prop
  | .ok s _ => QSt s ∧ s.ctrl.closed = true
  | .ex s _ => QSt s

/-- The non-decreasing check for percent sequences (claim C4). -/
def nonDecreasing : List Nat → Bool
  | [] => true
  | [_] => true
  | a :: b :: t => a ≤ b && nonDecreasing (b :: t)

/-- The percent values carried by an event sequence, in order. -/
def percents (l : List Ev) : List Nat := l.filterMap percentOf

/-- The messages of the error events in an event sequence. -/
def errorMsgs (l : List Ev) : List String :=
  l.filterMap fun e =>
    match e with
    | .errorEv m => some m
    | _ => none

/-- No occurrence of `n` can straddle the boundary between `a` and a
continuation `b`: no proper non-empty prefix of `n` is simultaneously a
suffix of `a` with the matching remainder a prefix of `b`. -/
def noStraddle (n a b : List Char) : Prop :=
  ∀ i, 0 < i → i < n.length → ¬ ((n.take i) <:+ a ∧ (n.drop i) <+: b)

/-- Boundary-independence of `a` alone: no proper non-empty prefix of `n`
is a suffix of `a` (hence `noStraddle n a b` for every `b`). -/
def noSufStraddle (n a : List Char) : Prop :=
  ∀ i, i < n.length → (0 < i → ¬ ((n.take i) <:+ a))

instance (n a : List Char) : Decidable (noSufStraddle n a) :=
  Nat.decidableBallLT _ _

theorem noStraddle_of_noSufStraddle {n a : List Char} (h : noSufStraddle n a)
    (b : List Char) : noStraddle n a b := by
  intro i hi hilt ⟨hsuf, _⟩
  exact h i hilt hi hsuf

theorem noStraddle_cons {n : List Char} {c : Char} {a b : List Char}
    (h : noStraddle n (c :: a) b) : noStraddle n a b := by
  intro i hi hilt ⟨hsuf, hpre⟩
  exact h i hi hilt ⟨hsuf.trans (List.suffix_cons c a), hpre⟩

theorem cnt_nil {n : List Char} (hn : n ≠ []) : cnt n [] = 0 := by
  cases n with
  | nil => exact absurd rfl hn
  | cons c t => simp [cnt]

/-- Splitting an occurrence count across an append, when no occurrence can
straddle the boundary. -/
theorem cnt_append {n : List Char} (hn : n ≠ []) :
    ∀ a b : List Char, noStraddle n a b → cnt n (a ++ b) = cnt n a + cnt n b := by
  intro a
  induction a with
  | nil =>
    intro b _
    simp [cnt_nil hn]
  | cons c a ih =>
    intro b hns
    have hrec := ih b (noStraddle_cons hns)
    have hhead : (if n <+: (c :: (a ++ b)) then 1 else 0) =
        (if n <+: (c :: a) then (1 : Nat) else 0) := by
      by_cases hp : n <+: (c :: a)
      · have h1 : n <+: c :: (a ++ b) := by
          have h2 := hp.trans (List.prefix_append (c :: a) b)
          simpa using h2
        rw [if_pos hp, if_pos h1]
      · by_cases hq : n <+: c :: (a ++ b)
        · exfalso
          -- `n` is a prefix of `(c :: a) ++ b` but not of `c :: a`, so it
          -- straddles the boundary: contradiction with `noStraddle`.
          have hq' : n <+: (c :: a) ++ b := by simpa using hq
          have hlen : (c :: a).length < n.length := by
            by_contra hle
            push_neg at hle
            exact hp (List.prefix_of_prefix_length_le hq' (List.prefix_append _ _) hle)
          obtain ⟨t, ht⟩ := hq'
          have htake : n.take (c :: a).length = c :: a := by
            have h1 : ((c :: a) ++ b).take (c :: a).length = c :: a :=
              List.take_left _ _
            rw [← ht] at h1
            rwa [List.take_append_of_le_length (Nat.le_of_lt hlen)] at h1
          have hdrop : n.drop (c :: a).length <+: b := by
            have h1 : ((c :: a) ++ b).drop (c :: a).length = b :=
              List.drop_left _ _
            rw [← ht] at h1
            rw [List.drop_append_of_le_length (Nat.le_of_lt hlen)] at h1
            exact ⟨t, h1⟩
          exact hns (c :: a).length (by simp) hlen
            ⟨by rw [htake], hdrop⟩
        · rw [if_neg hp, if_neg hq]
    simp only [List.cons_append, cnt, List.append_eq]
    rw [hhead, hrec]
    omega

/-- Every member of the `parts` list occurs in the joined string. -/
theorem mem_joinSp_infix {p : String} :
    ∀ {l : List String}, p ∈ l → p.data <:+: (joinSp l).data := by
  intro l
  induction l with
  | nil => intro h; exact absurd h (List.not_mem_nil p)
  | cons x xs ih =>
    intro h
    cases xs with
    | nil =>
      have hpx : p = x := by simpa using h
      exact hpx ▸ List.infix_refl _
    | cons y ys =>
      rcases List.mem_cons.mp h with rfl | hmem
      · apply List.IsPrefix.isInfix
        show p.data <+: (p ++ " " ++ joinSp (y :: ys)).data
        simp only [String.data_append, List.append_assoc]
        exact List.prefix_append _ _
      · have hsub : p.data <:+: (joinSp (y :: ys)).data := ih hmem
        have hstep : (joinSp (y :: ys)).data <:+: (joinSp (x :: y :: ys)).data := by
          apply List.IsSuffix.isInfix
          show (joinSp (y :: ys)).data <:+ (x ++ " " ++ joinSp (y :: ys)).data
          simp only [String.data_append, List.append_assoc]
          exact (List.suffix_append _ _).trans (List.suffix_append _ _)
        exact hsub.trans hstep

/-- Joining with a final extra element appends it after a space
(`[...xs, last].join(' ') = xs.join(' ') + ' ' + last` for non-empty `xs`). -/
theorem joinSp_concat {x : String} :
    ∀ {l : List String}, l ≠ [] → joinSp (l ++ [x]) = joinSp l ++ " " ++ x := by
  intro l
  induction l with
  | nil => intro h; exact absurd rfl h
  | cons y ys ih =>
    intro _
    cases ys with
    | nil => simp [joinSp]
    | cons z zs =>
      have h1 : joinSp (y :: ((z :: zs) ++ [x])) =
          y ++ " " ++ joinSp ((z :: zs) ++ [x]) := by
        simp [joinSp]
      show joinSp (y :: ((z :: zs) ++ [x])) = joinSp (y :: z :: zs) ++ " " ++ x
      rw [h1, ih (by simp)]
      show y ++ " " ++ (joinSp (z :: zs) ++ " " ++ x) =
          (y ++ " " ++ joinSp (z :: zs)) ++ " " ++ x
      simp [String.append_assoc]

/-! ### Decomposition of the built prompt around the custom-prompt tail -/

theorem promptParts_decomp (o : PromptOptions) :
    promptParts o =
      fixedPartsB (decide (o.generationMode = .add_sackboy)) o.removeCaptions
          o.styleStrength o.diorama
        ++ (if customTruthy o.customPrompt then [jsTrim (o.customPrompt.getD "")] else []) := by
  obtain ⟨st, di, cp, rc, gm⟩ := o
  cases gm <;> simp [promptParts, fixedPartsB]

theorem fixedPartsB_ne_nil (isAdd rc : Bool) (st : Strength) (di : Bool) :
    fixedPartsB isAdd rc st di ≠ [] := by
  cases isAdd <;> simp [fixedPartsB, addSackboyParts, transformParts]

/-- Finite check over all 24 flag combinations: the joined fixed parts
(with a trailing space) contain the exclusion clause exactly once, no
proper prefix of the clause is a suffix of them (so no occurrence can
straddle into an appended custom prompt), and without the trailing space
they also contain the clause exactly once. -/
theorem fixed_clause_facts :
    ∀ (isAdd rc : Bool) (st : Strength) (di : Bool),
      cnt noTextClause.data ((joinSp (fixedPartsB isAdd rc st di)).data ++ [' ']) = 1 ∧
      noSufStraddle noTextClause.data
        ((joinSp (fixedPartsB isAdd rc st di)).data ++ [' ']) ∧
      cnt noTextClause.data (joinSp (fixedPartsB isAdd rc st di)).data = 1 := by
  set_option maxRecDepth 100000 in decide

theorem noTextClause_data_ne_nil : noTextClause.data ≠ [] := by decide

/-- `buildPrompt` output decomposed as fixed text plus custom tail. -/
theorem builtPrompt_data_decomp (o : PromptOptions)
    (ht : customTruthy o.customPrompt = true) :
    (builtPrompt o).data =
      ((joinSp (fixedPartsB (decide (o.generationMode = .add_sackboy))
          o.removeCaptions o.styleStrength o.diorama)).data ++ [' '])
        ++ (jsTrim (o.customPrompt.getD "")).data := by
  unfold builtPrompt
  rw [promptParts_decomp, ht]
  simp only [if_true]
  rw [joinSp_concat (fixedPartsB_ne_nil _ _ _ _)]
  simp only [String.data_append, List.append_assoc]

/-- Helper for C8: the exclusion clause occurs exactly once in the built
prompt, provided the custom prompt does not itself contain the clause. -/
theorem clause_once (o : PromptOptions)
    (h : customTruthy o.customPrompt = true →
      strCnt noTextClause (jsTrim (o.customPrompt.getD "")) = 0) :
    strCnt noTextClause (builtPrompt o) = 1 := by
  obtain ⟨h1, h2, h3⟩ := fixed_clause_facts
    (decide (o.generationMode = .add_sackboy)) o.removeCaptions o.styleStrength o.diorama
  by_cases ht : customTruthy o.customPrompt
  · unfold strCnt
    rw [builtPrompt_data_decomp o ht,
      cnt_append noTextClause_data_ne_nil _ _ (noStraddle_of_noSufStraddle h2 _),
      h1]
    have h0 := h ht
    simp only [strCnt] at h0
    rw [h0]
  · unfold strCnt builtPrompt
    rw [promptParts_decomp]
    rw [Bool.not_eq_true] at ht
    rw [ht]
    simp only [Bool.false_eq_true, if_false, List.append_nil]
    exact h3

/-! ## Lemmas about the batching loop -/

theorem mkBatchesGo_sum :
    ∀ fuel r, r ≤ fuel → (mkBatchesGo fuel r).sum = r := by
  intro fuel
  induction fuel with
  | zero =>
    intro r hr
    have hr0 : r = 0 := by omega
    subst hr0
    simp [mkBatchesGo]
  | succ f ih =>
    intro r hr
    match r with
    | 0 => simp [mkBatchesGo]
    | s + 1 =>
      rw [mkBatchesGo, List.sum_cons,
        ih (s + 1 - min MAX_PER_REQUEST (s + 1)) (by simp only [MAX_PER_REQUEST]; omega)]
      simp only [MAX_PER_REQUEST]
      omega

theorem mkBatches_sum (n : Nat) : (mkBatches n).sum = n :=
  mkBatchesGo_sum n n (Nat.le_refl n)

theorem mkBatchesGo_bounds :
    ∀ fuel r, ∀ b ∈ mkBatchesGo fuel r, 1 ≤ b ∧ b ≤ MAX_PER_REQUEST := by
  intro fuel
  induction fuel with
  | zero =>
    intro r b hb
    match r with
    | 0 => simp [mkBatchesGo] at hb
    | s + 1 => simp [mkBatchesGo] at hb
  | succ f ih =>
    intro r b hb
    match r with
    | 0 => simp [mkBatchesGo] at hb
    | s + 1 =>
      rw [mkBatchesGo] at hb
      rcases List.mem_cons.mp hb with rfl | hmem
      · simp only [MAX_PER_REQUEST]
        omega
      · exact ih _ b hmem

theorem mkBatches_bounds (n : Nat) :
    ∀ b ∈ mkBatches n, 1 ≤ b ∧ b ≤ MAX_PER_REQUEST :=
  mkBatchesGo_bounds n n

/-! ## Lemmas about the line-buffering decoder -/

theorem lineSplit_cons_nl (cs : List Char) :
    lineSplit ('\n' :: cs) = ([] :: (lineSplit cs).1, (lineSplit cs).2) := by
  simp [lineSplit]

theorem lineSplit_cons_other {c : Char} (hc : c ≠ '\n') (cs : List Char) :
    lineSplit (c :: cs) =
      (match lineSplit cs with
       | ([], r) => ([], c :: r)
       | (l :: ls, r) => ((c :: l) :: ls, r)) := by
  simp [lineSplit, hc]

theorem lineSplit_append (xs ys : List Char) :
    lineSplit (xs ++ ys) =
      ((lineSplit xs).1 ++ (lineSplit ((lineSplit xs).2 ++ ys)).1,
       (lineSplit ((lineSplit xs).2 ++ ys)).2) := by
  induction xs with
  | nil => simp [lineSplit]
  | cons c xs ih =>
    rw [List.cons_append]
    by_cases hc : c = '\n'
    · subst hc
      rw [lineSplit_cons_nl, lineSplit_cons_nl, ih]
      simp
    · rw [lineSplit_cons_other hc, lineSplit_cons_other hc, ih]
      cases hxs : lineSplit xs with
      | mk ls1 r1 =>
        cases ls1 with
        | nil =>
          simp only [List.nil_append]
          cases h2 : lineSplit (r1 ++ ys) with
          | mk ls2 r2 =>
            cases ls2 with
            | nil =>
              rw [List.cons_append, lineSplit_cons_other hc, h2]
            | cons l2 ls2 =>
              rw [List.cons_append, lineSplit_cons_other hc, h2]
        | cons l1 ls1 =>
          simp

theorem lineSplit_rest_noNL (l : List Char) : '\n' ∉ (lineSplit l).2 := by
  induction l with
  | nil => simp [lineSplit]
  | cons c cs ih =>
    by_cases hc : c = '\n'
    · subst hc
      simpa [lineSplit] using ih
    · cases hxs : lineSplit cs with
      | mk ls r =>
        rw [hxs] at ih
        cases ls with
        | nil =>
          simp only [lineSplit, if_neg hc, hxs]
          simpa [Ne.symm hc] using ih
        | cons l0 ls0 =>
          simpa [lineSplit, if_neg hc, hxs] using ih

theorem lineSplit_of_noNL (l : List Char) (h : '\n' ∉ l) :
    lineSplit l = ([], l) := by
  induction l with
  | nil => simp [lineSplit]
  | cons c cs ih =>
    have hc : c ≠ '\n' := fun hcn => h (hcn ▸ List.mem_cons_self c cs)
    have hcs : '\n' ∉ cs := fun hn => h (List.mem_cons_of_mem c hn)
    simp [lineSplit, if_neg hc, ih hcs]

theorem feedAllFrom_join (chunks : List (List Char)) :
    ∀ buf : List Char, '\n' ∉ buf →
      feedAllFrom buf chunks = lineSplit (buf ++ chunks.flatten) := by
  induction chunks with
  | nil =>
    intro buf hb
    simp [feedAllFrom, lineSplit_of_noNL buf hb]
  | cons ch rest ih =>
    intro buf _
    have h2 := ih (lineSplit (buf ++ ch)).2 (lineSplit_rest_noNL (buf ++ ch))
    simp only [feedAllFrom, h2, List.flatten_cons]
    rw [← List.append_assoc, lineSplit_append (buf ++ ch) rest.flatten]

theorem linesFold_append (cfg : LoopCfg) (jsonOf : List Char → Option UpJson)
    (l1 : List (List Char)) :
    ∀ (ls : LoopSt) (l2 : List (List Char)),
      linesFold cfg jsonOf ls (l1 ++ l2) =
        ((linesFold cfg jsonOf (linesFold cfg jsonOf ls l1).1 l2).1,
         (linesFold cfg jsonOf ls l1).2 ++
           (linesFold cfg jsonOf (linesFold cfg jsonOf ls l1).1 l2).2) := by
  induction l1 with
  | nil => intro ls l2; simp [linesFold]
  | cons line rest ih =>
    intro ls l2
    simp only [List.cons_append, linesFold, List.append_eq]
    rw [ih]
    simp [List.append_assoc]

theorem relayPure_eq_linesFold (cfg : LoopCfg) (jsonOf : List Char → Option UpJson)
    (chunks : List (List Char)) :
    ∀ (ls : LoopSt) (buf : List Char),
      relayPure cfg jsonOf ls buf chunks =
        linesFold cfg jsonOf ls (feedAllFrom buf chunks).1 := by
  induction chunks with
  | nil => intro ls buf; simp [relayPure, feedAllFrom, linesFold]
  | cons ch rest ih =>
    intro ls buf
    simp only [relayPure, feedAllFrom, ih, linesFold_append]

/-! ## The single-terminal-event invariant: preservation lemmas -/

theorem QR_bind_final {α β : Type} {f : R α} {g : St → α → R β}
    (h : QR f) (hg : ∀ s v, QSt s → FinalR (g s v)) : FinalR (f.bind g) := by
  cases f with
  | ok s v => exact hg s v h
  | ex s e => exact h

theorem QR_bind_pres {α β : Type} {f : R α} {g : St → α → R β}
    (h : QR f) (hg : ∀ s v, QSt s → QR (g s v)) : QR (f.bind g) := by
  cases f with
  | ok s v => exact hg s v h
  | ex s e => exact h

theorem QR_ok {α : Type} {s : St} {v : α} : QR (R.ok s v) = QSt s := rfl

theorem QR_ex {α : Type} {s : St} {e : Exn} : QR (R.ex (α := α) s e) = QSt s := rfl

theorem FinalR_ex {α : Type} {s : St} {e : Exn} :
    FinalR (R.ex (α := α) s e) = QSt s := rfl

theorem QSt_of_ctrl_eq {s t : St} (h : t.ctrl = s.ctrl) (hs : QSt s) : QSt t := by
  unfold QSt
  rw [h]
  exact hs

theorem QSt_append_nonterm {s : St} {e : Ev} (he : isTerm e = false)
    (hb : s.ctrl.closed = false) (hs : QSt s) :
    QSt { s with ctrl := { s.ctrl with events := s.ctrl.events ++ [e] } } := by
  unfold QSt QCtrl at hs ⊢
  simp only [hb] at hs ⊢
  simpa [Ctrl.termCount, List.countP_append, List.countP_cons, he] using hs

theorem QSt_append_term_close {s : St} {e : Ev} (he : isTerm e = true)
    (hb : s.ctrl.closed = false) (hs : QSt s) :
    QSt { s with ctrl := { events := s.ctrl.events ++ [e], closed := true } } := by
  unfold QSt QCtrl at hs ⊢
  simp only [hb] at hs
  simp only [Ctrl.termCount] at hs ⊢
  constructor
  · simpa [List.countP_append, List.countP_cons, he] using hs
  · simp [lastIsTerm, he]

theorem enq_pres {e : Ev} (he : isTerm e = false) :
    ∀ s, QSt s → QR (enq e s) := by
  intro s hs
  unfold enq
  split
  · exact hs
  · next hc =>
    rw [QR_ok]
    exact QSt_append_nonterm he (by simpa using hc) hs

theorem sendProgress_pres (p : Nat) (msg : String) :
    ∀ s, QSt s → QR (sendProgress p msg s) := by
  intro s hs
  exact enq_pres (e := Ev.progress p msg) rfl _ hs

theorem emitTerminalClose_final {e : Ev} (he : isTerm e = true) :
    ∀ s, QSt s → FinalR (emitTerminalClose e s) := by
  intro s hs
  unfold emitTerminalClose enq
  split
  · exact hs
  · next hc =>
    have hb : s.ctrl.closed = false := by simpa using hc
    refine ⟨?_, rfl⟩
    exact QSt_of_ctrl_eq rfl (QSt_append_term_close he hb hs)

theorem runTick_pres (k : IvKind) (sd : Nat × Nat) :
    ∀ s, QSt s → QSt (runTick k sd s) := by
  intro s hs
  unfold runTick
  split
  · dsimp only
    split
    · exact hs
    · next hc =>
      exact QSt_append_nonterm rfl (by simpa using hc) hs
  · exact hs

theorem runTicks_pres (k : IvKind) :
    ∀ (l : List (Nat × Nat)) (s : St), QSt s → QSt (runTicks k l s) := by
  intro l
  induction l with
  | nil => intro s hs; exact hs
  | cons sd rest ih =>
    intro s hs
    exact ih _ (runTick_pres k sd s hs)

theorem fireTimeout_pres : ∀ s, QSt s → QSt (fireTimeout s) := by
  intro s hs
  unfold fireTimeout
  split
  · exact hs
  · next hc =>
    have hb : s.ctrl.closed = false := by simpa using hc
    exact QSt_of_ctrl_eq rfl (QSt_append_term_close rfl hb hs)

theorem awaitPt_pres (env : StreamEnv) (b : Bool) :
    ∀ s, QSt s → QR (awaitPt env b s) := by
  intro s hs
  unfold awaitPt
  have h1 : QSt (match s.iv with
      | some k => runTicks k (env.ticks s.idx) s
      | none => s) := by
    cases s.iv with
    | none => exact hs
    | some k => exact runTicks_pres k _ s hs
  set s1 := (match s.iv with
      | some k => runTicks k (env.ticks s.idx) s
      | none => s) with hs1
  have h2 : QSt (match s1.timeoutLeft with
      | some 0 => { (if s1.timerActive then fireTimeout s1 else s1) with timeoutLeft := none }
      | some (n + 1) => { s1 with timeoutLeft := some n }
      | none => s1) := by
    cases s1.timeoutLeft with
    | none => exact h1
    | some n =>
      cases n with
      | zero =>
        by_cases ht : s1.timerActive
        · rw [if_pos ht]
          exact QSt_of_ctrl_eq rfl (fireTimeout_pres s1 h1)
        · rw [if_neg ht]
          exact h1
      | succ m => exact h1
  set s2 := (match s1.timeoutLeft with
      | some 0 => { (if s1.timerActive then fireTimeout s1 else s1) with timeoutLeft := none }
      | some (n + 1) => { s1 with timeoutLeft := some n }
      | none => s1) with hs2
  by_cases hab : b ∧ { s2 with idx := s2.idx + 1 }.aborted
  · rw [if_pos hab]
    exact h2
  · rw [if_neg hab]
    exact h2

theorem storageStep_pres (env : StreamEnv) (pf : ParsedForm) :
    ∀ s, QSt s → QR (storageStep env pf s) := by
  intro s hs
  unfold storageStep
  by_cases hk : pf.keepPrivate
  · rw [if_pos hk]
    exact hs
  · rw [if_neg hk]
    exact QR_bind_pres (awaitPt_pres env false s hs) (fun s1 _ h1 => h1)

theorem auxPromptStep_pres (env : StreamEnv) (p1 p2 : String) :
    ∀ s, QSt s → QR (auxPromptStep env p1 p2 s) := by
  intro s hs
  unfold auxPromptStep
  refine QR_bind_pres (awaitPt_pres env true s hs) (fun s1 _ h1 => ?_)
  split
  · exact h1
  · split
    · exact QR_bind_pres (awaitPt_pres env true s1 h1) (fun s2 _ h2 => h2)
    · refine QR_bind_pres (awaitPt_pres env true s1 h1) (fun s2 _ h2 => ?_)
      split
      · split
        · exact h2
        · exact h2
      · exact h2

theorem lineEvents_nonterm (cfg : LoopCfg) (jsonOf : List Char → Option UpJson)
    (ls : LoopSt) (line : List Char) :
    ∀ e ∈ (lineEvents cfg jsonOf ls line).2, isTerm e = false := by
  intro e he
  unfold lineEvents at he
  split at he
  · simp at he
  · split at he
    · dsimp only at he
      split at he
      · simp at he
      · split at he
        · simp at he
        · split at he
          · dsimp only at he
            rcases List.mem_singleton.mp he with rfl
            rfl
          · split at he
            · rcases List.mem_singleton.mp he with rfl
              rfl
            · simp at he
    · simp at he

theorem linesFold_nonterm (cfg : LoopCfg) (jsonOf : List Char → Option UpJson) :
    ∀ (lines : List (List Char)) (ls : LoopSt),
      ∀ e ∈ (linesFold cfg jsonOf ls lines).2, isTerm e = false := by
  intro lines
  induction lines with
  | nil => intro ls e he; simp [linesFold] at he
  | cons line rest ih =>
    intro ls e he
    unfold linesFold at he
    dsimp only at he
    rcases List.mem_append.mp he with h | h
    · exact lineEvents_nonterm cfg jsonOf ls line e h
    · exact ih _ e h

theorem enqList_pres :
    ∀ evs : List Ev, (∀ e ∈ evs, isTerm e = false) →
      ∀ s, QSt s → QR (relayLoop.enqList evs s) := by
  intro evs
  induction evs with
  | nil => intro _ s hs; exact hs
  | cons e rest ih =>
    intro h s hs
    unfold relayLoop.enqList
    exact QR_bind_pres (enq_pres (h e (by simp)) s hs)
      (fun s1 _ h1 => ih (fun e' he' => h e' (by simp [he'])) s1 h1)

theorem relayLoop_pres (env : StreamEnv) (cfg : LoopCfg) :
    ∀ (reads : List ReadEv) (ls : LoopSt) (buf : List Char) (hd : Bool) (s : St),
      QSt s → QR (relayLoop env cfg reads ls buf hd s) := by
  intro reads
  induction reads with
  | nil =>
    intro ls buf hd s hs
    unfold relayLoop
    exact QR_bind_pres (awaitPt_pres env true s hs) (fun s1 _ h1 => h1)
  | cons re rest ih =>
    intro ls buf hd s hs
    unfold relayLoop
    refine QR_bind_pres (awaitPt_pres env true s hs) (fun s1 _ h1 => ?_)
    cases re with
    | rerr m => exact h1
    | chunk cs =>
      dsimp only
      exact QR_bind_pres
        (enqList_pres _ (linesFold_nonterm cfg env.jsonOf _ _) s1 h1)
        (fun s2 _ h2 => ih _ _ _ s2 h2)

theorem transformPath_final (env : StreamEnv) (pf : ParsedForm) :
    ∀ s, QSt s → FinalR (transformPath env pf s) := by
  intro s hs
  unfold transformPath
  refine QR_bind_final (sendProgress_pres _ _ s hs) (fun s1 _ h1 => ?_)
  split
  · exact emitTerminalClose_final (by rfl) s1 h1
  · refine QR_bind_final (sendProgress_pres _ _ s1 h1) (fun s2 _ h2 => ?_)
    refine QR_bind_final (sendProgress_pres _ _ s2 h2) (fun s3 _ h3 => ?_)
    refine QR_bind_final (awaitPt_pres env true _ (QSt_of_ctrl_eq rfl h3))
      (fun s4 _ h4 => ?_)
    split
    · exact h4
    · dsimp only
      split
      · refine QR_bind_final (awaitPt_pres env true _ (QSt_of_ctrl_eq rfl h4))
          (fun s6 _ h6 => emitTerminalClose_final (by rfl) s6 h6)
      · refine QR_bind_final (sendProgress_pres _ _ _ (QSt_of_ctrl_eq rfl h4))
          (fun s6 _ h6 => ?_)
        split
        · exact emitTerminalClose_final (by rfl) s6 h6
        · refine QR_bind_final (relayLoop_pres env editCfg _ _ _ _ s6 h6)
            (fun s7 r h7 => ?_)
          split
          · split
            · exact emitTerminalClose_final (by rfl) _ h7
            · exact emitTerminalClose_final (by rfl) _ h7
          · exact QR_bind_final (storageStep_pres env pf _ h7)
              (fun s8 url h8 => emitTerminalClose_final (by rfl) s8 h8)

theorem cryptoPath_final (env : StreamEnv) (pf : ParsedForm) :
    ∀ s, QSt s → FinalR (cryptoPath env pf s) := by
  intro s hs
  unfold cryptoPath
  refine QR_bind_final (sendProgress_pres _ _ s hs) (fun s1 _ h1 => ?_)
  refine QR_bind_final (auxPromptStep_pres env _ _ s1 h1) (fun s2 _ h2 => ?_)
  refine QR_bind_final (sendProgress_pres _ _ s2 h2) (fun s3 _ h3 => ?_)
  refine QR_bind_final (awaitPt_pres env true _ (QSt_of_ctrl_eq rfl h3))
    (fun s4 _ h4 => ?_)
  split
  · exact h4
  · dsimp only
    split
    · exact QR_bind_final (awaitPt_pres env true _ (QSt_of_ctrl_eq rfl h4))
        (fun s6 _ h6 => h6)
    · refine QR_bind_final (sendProgress_pres _ _ _ (QSt_of_ctrl_eq rfl h4))
        (fun s6 _ h6 => ?_)
      split
      · exact h6
      · refine QR_bind_final (relayLoop_pres env cryptoCfg _ _ _ _ s6 h6)
          (fun s7 r h7 => ?_)
        split
        · split
          · exact h7
          · exact h7
        · exact QR_bind_final (storageStep_pres env pf _ h7)
            (fun s8 url h8 => emitTerminalClose_final (by rfl) s8 h8)

theorem pokemonPath_final (env : StreamEnv) (pf : ParsedForm) :
    ∀ s, QSt s → FinalR (pokemonPath env pf s) := by
  intro s hs
  unfold pokemonPath
  refine QR_bind_final (sendProgress_pres _ _ s hs) (fun s1 _ h1 => ?_)
  refine QR_bind_final (auxPromptStep_pres env _ _ s1 h1) (fun s2 _ h2 => ?_)
  refine QR_bind_final (sendProgress_pres _ _ s2 h2) (fun s3 _ h3 => ?_)
  refine QR_bind_final (awaitPt_pres env true _ (QSt_of_ctrl_eq rfl h3))
    (fun s4 _ h4 => ?_)
  split
  · exact h4
  · split
    · exact QR_bind_final (awaitPt_pres env true _ h4) (fun s5 _ h5 => h5)
    · dsimp only
      split
      · exact QSt_of_ctrl_eq rfl h4
      · refine QR_bind_final
          (relayLoop_pres env pokemonCfg _ _ _ _ _ (QSt_of_ctrl_eq rfl h4))
          (fun s6 r h6 => ?_)
        split
        · split
          · exact h6
          · exact h6
        · exact QR_bind_final (storageStep_pres env pf _ h6)
            (fun s7 url h7 => emitTerminalClose_final (by rfl) s7 h7)

theorem mainFlow_final (env : StreamEnv) :
    ∀ s, QSt s → FinalR (mainFlow env s) := by
  intro s hs
  unfold mainFlow
  refine QR_bind_final (sendProgress_pres _ _ s hs) (fun s1 _ h1 => ?_)
  refine QR_bind_final (awaitPt_pres env false s1 h1) (fun s2 _ h2 => ?_)
  split
  · exact h2
  · split
    · exact emitTerminalClose_final (by rfl) _ h2
    · split
      · exact pokemonPath_final env _ _ h2
      · split
        · exact cryptoPath_final env _ _ h2
        · exact transformPath_final env _ _ h2

theorem catchWrap_final {r : R Unit} (h : FinalR r) :
    QSt (catchWrap r) ∧ (catchWrap r).ctrl.closed = true := by
  cases r with
  | ok s v => exact ⟨h.1, h.2⟩
  | ex s e =>
    unfold catchWrap
    dsimp only
    split
    · next hc => exact ⟨h, hc⟩
    · next hc =>
      have hb : s.ctrl.closed = false := by simpa using hc
      exact ⟨QSt_of_ctrl_eq rfl (QSt_append_term_close rfl hb h), rfl⟩

/-! ## Claim C1 -/

/-- C1: for every request processed by the streaming relay — every form
outcome, API-key state, generation mode, upstream response, upstream chunk
sequence or mid-stream failure, every await point at which the wall-clock
timeout may fire, and every synthetic-progress interval schedule — the
output stream is closed with exactly one terminal event (`complete` xor
`error`) delivered, and that terminal event is the last event: never zero
terminal events and never two. -/
theorem c1_exactly_one_terminal_event (env : StreamEnv) :
    (runPOST env).closed = true ∧ (runPOST env).termCount = 1 ∧
      lastIsTerm (runPOST env).events = true := by
  have h0 : QSt { ctrl := { events := [], closed := false }
                  timerActive := true
                  timeoutLeft := env.timeoutAt
                  aborted := false
                  iv := none
                  current := 10
                  idx := 0 } := by
    unfold QSt QCtrl Ctrl.termCount
    simp
  have hf := mainFlow_final env _ h0
  have hc := catchWrap_final hf
  rcases hc with ⟨hq, hcl⟩
  unfold QSt QCtrl at hq
  rw [hcl] at hq
  exact ⟨hcl, hq.1, hq.2⟩

/-! ## Claim C2 -/

/-- C2: the relay's line-buffering decoder is chunk-boundary-independent:
for every upstream byte sequence and every partition of it into read
chunks (and for every loop configuration and every JSON interpretation of
the framed payloads), the relay loop produces exactly the same final loop
state and the same sequence of emitted ProgressEvents as when the
identical bytes arrive in a single chunk — no logical event is ever split
or merged by chunk boundaries. -/
theorem c2_framing_chunk_boundary_independent (cfg : LoopCfg)
    (jsonOf : List Char → Option UpJson) (chunks : List (List Char)) :
    relayPure cfg jsonOf ⟨0, none⟩ [] chunks =
      relayPure cfg jsonOf ⟨0, none⟩ [] [chunks.flatten] := by
  rw [relayPure_eq_linesFold, relayPure_eq_linesFold,
    feedAllFrom_join chunks [] (by simp),
    feedAllFrom_join [chunks.flatten] [] (by simp)]
  simp

/-! ## Claim C4 -/

/-- A parsed transform-mode request with a valid image, privacy on. -/
def okPf : ParsedForm :=
  ⟨some (.file ⟨"image/png", 100⟩), .s1024, .medium, false, true, "", false, .transform⟩

/-- JSON interpretation for the C4 trace: `p` is a partial frame, `c` a
completed frame. -/
def c4json : List Char → Option UpJson := fun cs =>
  if cs = "p".data then some ⟨"image_edit.partial_image", some "X", none⟩
  else if cs = "c".data then some ⟨"image_edit.completed", some "IMG", none⟩
  else none

/-- C4 failing input: an ordinary successful transform request whose
upstream stream delivers one partial frame and one completed frame in a
single chunk; no timeout, no interval ticks. -/
def c4env : StreamEnv :=
  { parse := .ok okPf
    apiKey := true
    auxRes := .ok ⟨true, 200, none, ""⟩
    auxPrompt := none
    imgRes := .ok ⟨true, 200, none, ""⟩
    hasBody := true
    reads := [.chunk ("data: p\ndata: c\n".data)]
    storeUrl := none
    jsonOf := c4json
    timeoutAt := none
    ticks := fun _ => [] }

/-- C4 (code bug): on the failing input the relay emits the percent
sequence `[5, 10, 10, 15, 95, 35, 90, 100]` — the fixed
`sendProgress(95, 'Receiving generated image...')` issued before the
stream is relayed exceeds the later partial percent
`min(20 + 15·1, 80) = 35` and the `Finalizing` percent 90, so the percent
values are *not* monotonically non-decreasing as the claim (and the spec's
ordering guarantee) requires. -/
theorem c4_percent_regression :
    percents (runPOST c4env).events = [5, 10, 10, 15, 95, 35, 90, 100] ∧
    nonDecreasing (percents (runPOST c4env).events) = false := by
  constructor
  · decide
  · decide

/-! ## Claim C6 -/

/-- Environment for C6: a transform request whose upstream image call
responds with `ok = false`, the given status, the given extracted
`error.message` (when parseable) and the given raw body text; everything
else succeeds and nothing fires. -/
def c6env (msg : Option String) (status : Nat) (raw : String) : StreamEnv :=
  { parse := .ok okPf
    apiKey := true
    auxRes := .ok ⟨true, 200, none, ""⟩
    auxPrompt := none
    imgRes := .ok ⟨false, status, msg, raw⟩
    hasBody := true
    reads := []
    storeUrl := none
    jsonOf := fun _ => none
    timeoutAt := none
    ticks := fun _ => [] }

/-- C6 counterexample: when the upstream error body is not parseable JSON
(no `error.message`), the streaming relay's terminal error message is the
fixed string `"OpenAI error (<status>)"` — it does *not* fall back to the
raw response text (`"boom"` here), contrary to the claim. -/
theorem c6_counterexample :
    errorMsgs (runPOST (c6env none 500 "boom")).events = ["OpenAI error (500)"] ∧
    (runPOST (c6env none 500 "boom")).events ≠
      [.progress 5 "Parsing request...",
       .progress 10 "Starting OpenAI transformation...",
       .progress 10 "Starting OpenAI transformation...",
       .progress 15 "Connecting to OpenAI...",
       .errorEv "boom"] := by
  constructor
  · decide
  · decide

/-- C6 (amended): on a non-success upstream status the streaming relay
emits exactly one terminal `error` event and closes; its message is the
`error.message` extracted from the JSON error body when present and
non-empty, and otherwise the fixed string `"OpenAI error (<status>)"`
(not the raw response text).  In particular an HTTP 429 with body
`{error:{message:"rate limited"}}` yields the single error message
`"rate limited"` followed by stream close. -/
theorem c6_upstream_error_single_terminal (m : String) (hm : m ≠ "")
    (status : Nat) (raw : String) :
    (runPOST (c6env (some m) status raw) =
      { events := [.progress 5 "Parsing request...",
                   .progress 10 "Starting OpenAI transformation...",
                   .progress 10 "Starting OpenAI transformation...",
                   .progress 15 "Connecting to OpenAI...",
                   .errorEv m],
        closed := true } ∧
      (runPOST (c6env (some m) status raw)).termCount = 1) ∧
    runPOST (c6env none status raw) =
      { events := [.progress 5 "Parsing request...",
                   .progress 10 "Starting OpenAI transformation...",
                   .progress 10 "Starting OpenAI transformation...",
                   .progress 15 "Connecting to OpenAI...",
                   .errorEv ("OpenAI error (" ++ toString status ++ ")")],
        closed := true } := by
  have h1 : runPOST (c6env (some m) status raw) =
      { events := [.progress 5 "Parsing request...",
                   .progress 10 "Starting OpenAI transformation...",
                   .progress 10 "Starting OpenAI transformation...",
                   .progress 15 "Connecting to OpenAI...",
                   .errorEv m],
        closed := true } := by
    simp [runPOST, mainFlow, catchWrap, transformPath, sendProgress, enq, awaitPt,
      emitTerminalClose, cleanupS, setIv, clearIv, errMsgOr, c6env, okPf, fileFalsy,
      R.bind, runTicks, runTick, fireTimeout, hm]
  have h2 : runPOST (c6env none status raw) =
      { events := [.progress 5 "Parsing request...",
                   .progress 10 "Starting OpenAI transformation...",
                   .progress 10 "Starting OpenAI transformation...",
                   .progress 15 "Connecting to OpenAI...",
                   .errorEv ("OpenAI error (" ++ toString status ++ ")")],
        closed := true } := by
    simp [runPOST, mainFlow, catchWrap, transformPath, sendProgress, enq, awaitPt,
      emitTerminalClose, cleanupS, setIv, clearIv, errMsgOr, c6env, okPf, fileFalsy,
      R.bind, runTicks, runTick, fireTimeout]
  refine ⟨⟨h1, ?_⟩, h2⟩
  rw [h1]
  simp [Ctrl.termCount, isTerm]

/-- C6 witness: the claim's 429 example. -/
theorem c6_witness :
    runPOST (c6env (some "rate limited") 429 "") =
      { events := [.progress 5 "Parsing request...",
                   .progress 10 "Starting OpenAI transformation...",
                   .progress 10 "Starting OpenAI transformation...",
                   .progress 15 "Connecting to OpenAI...",
                   .errorEv "rate limited"],
        closed := true } ∧
    (runPOST (c6env (some "rate limited") 429 "")).termCount = 1 :=
  (c6_upstream_error_single_terminal "rate limited" (by decide) 429 "").1

/-! ## Claim C3 -/

/-- The base sentence of the `transform` branch. -/
def transformBase : String :=
  "Transform all characters from the uploaded image into Sackboy-style figures from Little Big Planet, with burlap plush textures, yarn stitching, and button-like eyes."

/-- The base sentence of the `add_sackboy` branch. -/
def addSackboyBase : String :=
  "Add a single Sackboy character from Little Big Planet into the uploaded image, with burlap plush textures, yarn stitching, and button-like eyes."

/-- C3 counterexample: with the non-empty custom prompt `"Make it neon."`,
the built prompt still contains the default base instruction verbatim — the
claim's assertion that the base instructions are omitted is false. -/
theorem c3_counterexample :
    customTruthy (PromptOptions.mk .medium false (some "Make it neon.") false .transform).customPrompt = true ∧
    containsStr
      (builtPrompt (PromptOptions.mk .medium false (some "Make it neon.") false .transform))
      transformBase :=
  ⟨by decide, mem_joinSp_infix (by simp [promptParts, transformBase, transformParts, customTruthy])⟩

/-- C3 (amended): when `customPrompt` is non-empty (non-whitespace), the
built prompt contains the trimmed custom text verbatim, but the default
base instructions are *also* present (the custom prompt is appended after
all default parts; it does not replace them). -/
theorem c3_custom_appended_base_retained (o : PromptOptions)
    (h : customTruthy o.customPrompt = true) :
    containsStr (builtPrompt o) (jsTrim (o.customPrompt.getD "")) ∧
    containsStr (builtPrompt o)
      (if o.generationMode = .add_sackboy then addSackboyBase else transformBase) := by
  constructor
  · exact mem_joinSp_infix (by simp [promptParts, h])
  · by_cases hm : o.generationMode = .add_sackboy
    · rw [if_pos hm]
      exact mem_joinSp_infix (by simp [promptParts, hm, addSackboyBase, addSackboyParts])
    · rw [if_neg hm]
      exact mem_joinSp_infix (by simp [promptParts, hm, transformBase, transformParts])

/-- Concrete options used by the C3 witness. -/
def c3wOpts : PromptOptions :=
  PromptOptions.mk .high true (some "  Neon vibes!  ") true .add_sackboy

/-- C3 witness. -/
theorem c3_witness :
    containsStr (builtPrompt c3wOpts) (jsTrim (c3wOpts.customPrompt.getD "")) ∧
    containsStr (builtPrompt c3wOpts)
      (if c3wOpts.generationMode = .add_sackboy then addSackboyBase else transformBase) :=
  c3_custom_appended_base_retained c3wOpts (by decide)

/-! ## Claim C5 -/

/-- C5: `validateUpload` rejects any type outside the three-type
allow-list regardless of size, rejects any size above the 8 MB ceiling
regardless of type, and returns `null` exactly when the type is allowed
and the size is within the ceiling. -/
theorem c5_validateUpload_spec (f : JsFile) :
    (f.type ∉ ACCEPT → validateUpload f ≠ none) ∧
    (f.size > MAX_SIZE → validateUpload f ≠ none) ∧
    (validateUpload f = none ↔ (f.type ∈ ACCEPT ∧ f.size ≤ MAX_SIZE)) := by
  by_cases ht : f.type ∈ ACCEPT
  · by_cases hs : f.size > MAX_SIZE
    · simp [validateUpload, ht, hs]
    · simp [validateUpload, ht, hs]
      omega
  · simp [validateUpload, ht]

/-- C5 witness: a GIF of any size is rejected, an 9 MiB PNG is rejected. -/
theorem c5_witness :
    validateUpload (JsFile.mk "image/gif" 5) ≠ none ∧
    validateUpload (JsFile.mk "image/png" 9437184) ≠ none :=
  ⟨(c5_validateUpload_spec _).1 (by decide),
   (c5_validateUpload_spec _).2.1 (by decide)⟩

/-! ## Claim C7 -/

/-- C7 counterexample: calling `buildPrompt` with the auxiliary
`random_crypto` mode does not fail — it succeeds and returns the ordinary
`transform` prompt (the `else` branch of the mode test).  The claim's
"fails iff auxiliary mode" is false at this input. -/
theorem c7_counterexample :
    (buildPrompt (PromptOptions.mk .medium false none false .random_crypto)).isOk = true ∧
    buildPrompt (PromptOptions.mk .medium false none false .random_crypto) =
      buildPrompt (PromptOptions.mk .medium false none false .transform) :=
  ⟨rfl, rfl⟩

/-- C7 (amended): `buildPrompt` never fails, for any options value — in
particular never for the `transform` and `add_sackboy` modes; its source
contains no failure signal at all (its option type does not even admit the
auxiliary modes, and at runtime an auxiliary mode falls through to the
ordinary `transform` branch). -/
theorem c7_buildPrompt_total (o : PromptOptions) :
    buildPrompt o = Except.ok (builtPrompt o) ∧ (buildPrompt o).isOk = true :=
  ⟨rfl, rfl⟩

/-! ## Claim C8 -/

/-- C8 counterexample: a "valid" options value whose custom prompt is
itself the exclusion clause makes the clause occur twice in the output —
the universally quantified "exactly once" is false. -/
theorem c8_counterexample :
    customTruthy (some noTextClause) = true ∧
    strCnt noTextClause
      (builtPrompt (PromptOptions.mk .medium false (some noTextClause) false .transform)) = 2 := by
  constructor
  · decide
  · set_option maxRecDepth 40000 in decide

/-- C8 (amended): the built prompt contains the no-text/no-watermark
clause exactly once for every style/diorama/caption/mode/custom-prompt
combination whose custom prompt does not itself contain the clause (the
code appends the clause exactly once; a custom prompt containing the
clause text adds further occurrences). -/
theorem c8_clause_exactly_once (o : PromptOptions)
    (h : customTruthy o.customPrompt = true →
      strCnt noTextClause (jsTrim (o.customPrompt.getD "")) = 0) :
    strCnt noTextClause (builtPrompt o) = 1 :=
  clause_once o h

/-- C8 witness. -/
theorem c8_witness :
    strCnt noTextClause
      (builtPrompt (PromptOptions.mk .low true (some "Neon on the walls.") false .transform)) = 1 :=
  c8_clause_exactly_once _ (by intro _; set_option maxRecDepth 40000 in decide)

/-! ## Claim C9 -/

/-- C9: for `random_crypto` and `pokemon_card` modes, `parseForm` performs
no validation of the image entry whatsoever: whatever the image entry is —
absent, a non-Blob value, or a file of any MIME type and any size — the
parse succeeds (given well-formed control fields, which are independent of
the image) and the image entry is returned unchecked. -/
theorem c9_skip_modes_bypass_image_validation (form : FormDataM)
    (hgm : orDefault form.generationMode "transform" = "random_crypto" ∨
           orDefault form.generationMode "transform" = "pokemon_card")
    (hsz : (parseSize (orDefault form.size "1024x1024")).isOk = true)
    (hst : (parseStrength (orDefault form.styleStrength "medium")).isOk = true) :
    ∃ r : ParsedForm, parseForm form = Except.ok r ∧ r.file = form.image := by
  have hcond : ¬ (orDefault form.generationMode "transform" ≠ "random_crypto" ∧
      orDefault form.generationMode "transform" ≠ "pokemon_card") := by
    rcases hgm with h | h <;> simp [h]
  cases hszv : parseSize (orDefault form.size "1024x1024") with
  | error e => rw [hszv] at hsz; simp [Except.isOk, Except.toBool] at hsz
  | ok sz =>
    cases hstv : parseStrength (orDefault form.styleStrength "medium") with
    | error e => rw [hstv] at hst; simp [Except.isOk, Except.toBool] at hst
    | ok st =>
      rcases hgm with h | h
      · refine ⟨⟨form.image, sz, st, decide (form.diorama = some "true"),
          decide (¬ (form.keepPrivate = some "false")), form.customPrompt.getD "",
          decide (form.removeCaptions = some "true"), .random_crypto⟩, ?_, rfl⟩
        simp [parseForm, hcond, h, hszv, hstv, parseGenMode]
      · refine ⟨⟨form.image, sz, st, decide (form.diorama = some "true"),
          decide (¬ (form.keepPrivate = some "false")), form.customPrompt.getD "",
          decide (form.removeCaptions = some "true"), .pokemon_card⟩, ?_, rfl⟩
        simp [parseForm, hcond, h, hszv, hstv, parseGenMode]

/-- C9 witness: with mode `random_crypto`, a 50 MB PDF "image" is accepted
and passed through; with mode `pokemon_card`, a missing image is accepted. -/
theorem c9_witness :
    (∃ r : ParsedForm,
      parseForm { image := some (.file (JsFile.mk "application/pdf" 52428800)),
                  generationMode := some "random_crypto" } = Except.ok r ∧
      r.file = some (.file (JsFile.mk "application/pdf" 52428800))) ∧
    (∃ r : ParsedForm,
      parseForm { generationMode := some "pokemon_card" } = Except.ok r ∧
      r.file = none) :=
  ⟨c9_skip_modes_bypass_image_validation _ (by decide) (by decide) (by decide),
   c9_skip_modes_bypass_image_validation _ (by decide) (by decide) (by decide)⟩

/-! ## Claim C10 -/

/-- C10: the requested count is normalized to `1` when absent, non-finite
or below `1` and capped at `MAX_TOTAL = 100`; the batching loop splits the
normalized count into batches of at most `MAX_PER_REQUEST = 10` whose
sizes sum exactly to it; and every success response carries
`meta.requested` equal to the normalized count. -/
theorem c10_count_normalization_and_batching (env : StylizeEnv) :
    (normalizeN none = 1 ∧ normalizeN (some .nan) = 1 ∧
     normalizeN (some .posInf) = 1 ∧ normalizeN (some .negInf) = 1) ∧
    (∀ i : Int, i < 1 → normalizeN (some (.int i)) = 1) ∧
    (∀ i : Int, 1 ≤ i → normalizeN (some (.int i)) = min i MAX_TOTAL) ∧
    ((mkBatches (normalizeN env.nRaw).toNat).sum = (normalizeN env.nRaw).toNat ∧
     ∀ b ∈ mkBatches (normalizeN env.nRaw).toNat, 1 ≤ b ∧ b ≤ MAX_PER_REQUEST) ∧
    (∀ img url meta, stylizePost env = .okResp img url meta →
      meta.requested = normalizeN env.nRaw) := by
  refine ⟨⟨by decide, by decide, by decide, by decide⟩, ?_, ?_,
    ⟨mkBatches_sum _, mkBatches_bounds _⟩, ?_⟩
  · intro i hi
    simp only [normalizeN, MAX_TOTAL]
    rw [if_pos hi]
    decide
  · intro i hi
    simp only [normalizeN]
    rw [if_neg (by omega)]
  · intro img url meta h
    unfold stylizePost at h
    cases hpf : parseForm env.form with
    | error m => rw [hpf] at h; exact absurd h (by simp)
    | ok pf =>
      rw [hpf] at h
      simp only at h
      by_cases hn : normalizeN env.nRaw = 1
      · rw [if_pos hn] at h
        cases hs : env.singleRes with
        | notOk m => rw [hs] at h; exact absurd h (by simp)
        | okJson b64 =>
          rw [hs] at h
          cases b64 with
          | none => exact absurd h (by simp)
          | some b =>
            simp only at h
            by_cases hb : b = ""
            · rw [if_pos hb] at h; exact absurd h (by simp)
            · rw [if_neg hb] at h
              have hmeta : meta = { requested := 1, returned := 1 } := by
                cases h; rfl
              rw [hmeta, hn]
      · rw [if_neg hn] at h
        cases hf : firstBatchFail env (mkBatches (normalizeN env.nRaw).toNat).length with
        | some m => rw [hf] at h; exact absurd h (by simp)
        | none =>
          rw [hf] at h
          cases hc : collectB64 env (mkBatches (normalizeN env.nRaw).toNat).length with
          | nil => rw [hc] at h; exact absurd h (by simp)
          | cons b rest =>
            rw [hc] at h
            have hmeta : meta =
                { requested := normalizeN env.nRaw, returned := (b :: rest).length } := by
              cases h; rfl
            rw [hmeta]

/-- Concrete environment for the C10 witness: `n = 25`, valid form, three
successful batches of one image each. -/
def c10env : StylizeEnv :=
  { form := { image := some (.file (JsFile.mk "image/png" 100)) }
    nRaw := some (.int 25)
    singleRes := .okJson (some "x")
    batchRes := fun _ => .okJson [some "x"]
    storeUrl := none }

/-- C10 witness. -/
theorem c10_witness :
    normalizeN (some (.int 0)) = 1 ∧
    normalizeN (some (.int 250)) = min 250 MAX_TOTAL ∧
    (MetaOut.mk 25 3).requested = normalizeN c10env.nRaw :=
  ⟨(c10_count_normalization_and_batching c10env).2.1 0 (by decide),
   (c10_count_normalization_and_batching c10env).2.2.1 250 (by decide),
   (c10_count_normalization_and_batching c10env).2.2.2.2
     "data:image/png;base64,x" none (MetaOut.mk 25 3) (by decide)⟩

end Sackboy
